/-
Verification of the Quote Normalization Engine
(backend/app/services/quote_normalization.py).

The engine is shallowly embedded below.  Python `Decimal` values are exact
decimal fractions, modelled by `ℚ`.  All rational operations used by the
embedding (`qAdd`, `qSub`, `qMul`, `qDiv`, `qNeg`, comparisons) are defined
through `Rat.divInt` on numerators and denominators so that concrete runs
reduce inside the kernel; the bridge lemmas `qAdd_eq`, `qMul_eq`, … identify
them with the field operations of `ℚ`.

Modelling notes, applying throughout:
  * Python raises exceptions per quote; the embedding uses `Except String`.
  * `dict.get(k, default)` on an optional field is `Option.getD`.
  * `str.upper`/`str.lower` are modelled character-wise for ASCII
    (`Char.toUpper`/`Char.toLower`), which is what the engine's currency,
    unit and incoterm codes use.
  * `float(...)` conversions at the output boundary are modelled as the
    identity on `ℚ` (the values are exact decimals well inside the range
    where the conversion is injective and order preserving).
  * `Decimal` division carries 28 significant digits; the embedding divides
    exactly in `ℚ`.  Every division result is either quantized right away
    (rates, at 6 decimals) or only ever compared/rounded at 2 or 4 decimals,
    where the two agree on the values handled here.
-/
import Mathlib

/-- Exact decimal arithmetic: addition, via numerators/denominators. -/
def qAdd (a b : ℚ) : ℚ :=
  Rat.divInt (a.num * (b.den : ℤ) + b.num * (a.den : ℤ)) ((a.den : ℤ) * (b.den : ℤ))

/-- Exact decimal arithmetic: subtraction. -/
def qSub (a b : ℚ) : ℚ :=
  Rat.divInt (a.num * (b.den : ℤ) - b.num * (a.den : ℤ)) ((a.den : ℤ) * (b.den : ℤ))

/-- Exact decimal arithmetic: multiplication. -/
def qMul (a b : ℚ) : ℚ :=
  Rat.divInt (a.num * b.num) ((a.den : ℤ) * (b.den : ℤ))

/-- Exact decimal arithmetic: division (0 when the divisor is 0, as in `ℚ`). -/
def qDiv (a b : ℚ) : ℚ :=
  Rat.divInt (a.num * (b.den : ℤ)) ((a.den : ℤ) * b.num)

/-- Exact decimal arithmetic: negation. -/
def qNeg (a : ℚ) : ℚ :=
  Rat.divInt (-a.num) (a.den : ℤ)

/-- Boolean comparison mirroring `≤` on `ℚ`. -/
def qleB (a b : ℚ) : Bool :=
  decide (a.num * (b.den : ℤ) ≤ b.num * (a.den : ℤ))

/-- Boolean comparison mirroring `<` on `ℚ`. -/
def qltB (a b : ℚ) : Bool :=
  !(qleB b a)

/-- Absolute value on `ℚ`, kernel-reducible. -/
def qAbs (a : ℚ) : ℚ :=
  if qleB 0 a then a else qNeg a

instance {ε α : Type} [DecidableEq ε] [DecidableEq α] : DecidableEq (Except ε α) := fun x y =>
  match x, y with
  | .ok a, .ok b => decidable_of_iff (a = b) (by simp)
  | .error a, .error b => decidable_of_iff (a = b) (by simp)
  | .ok _, .error _ => isFalse (fun h => by cases h)
  | .error _, .ok _ => isFalse (fun h => by cases h)

/-- Powers of ten used by the quantization steps, as integers. -/
def pow10 : ℕ → ℤ
  | 0 => 1
  | d + 1 => 10 * pow10 d

/-- Decimal.quantize at `d` decimal places with ROUND_HALF_UP
(ties rounded away from zero), as used for the 4-decimal unit price and
the 2-decimal total. -/
def quantHalfUp (d : ℕ) (x : ℚ) : ℚ :=
  let n := pow10 d
  if qleB 0 x then
    Rat.divInt ((qAdd (qMul x (Rat.divInt n 1)) (Rat.divInt 1 2)).floor) n
  else
    qNeg (Rat.divInt ((qAdd (qMul (qNeg x) (Rat.divInt n 1)) (Rat.divInt 1 2)).floor) n)

/-- Decimal.quantize at `d` decimal places with the default context rounding
ROUND_HALF_EVEN (ties to the even digit), as used for the 6-decimal exchange
rate. -/
def quantHalfEven (d : ℕ) (x : ℚ) : ℚ :=
  let n := pow10 d
  let y := qMul x (Rat.divInt n 1)
  let f := y.floor
  let r := qSub y (Rat.divInt f 1)
  let k : ℤ :=
    if qltB r (Rat.divInt 1 2) then f
    else if qltB (Rat.divInt 1 2) r then f + 1
    else if f % 2 = 0 then f else f + 1
  Rat.divInt k n

/-- STATIC_EXCHANGE_RATES: currency code to USD-per-unit value. -/
def STATIC_EXCHANGE_RATES : List (String × ℚ) :=
  [("USD", Rat.divInt 1 1),
   ("EUR", Rat.divInt 92 100),
   ("GBP", Rat.divInt 79 100),
   ("CAD", Rat.divInt 136 100),
   ("MXN", Rat.divInt 1715 100),
   ("CNY", Rat.divInt 724 100),
   ("JPY", Rat.divInt 1495 10),
   ("INR", Rat.divInt 831 10),
   ("KRW", Rat.divInt 13200 10),
   ("BRL", Rat.divInt 497 100),
   ("AUD", Rat.divInt 153 100),
   ("CHF", Rat.divInt 88 100),
   ("SGD", Rat.divInt 134 100),
   ("TWD", Rat.divInt 315 10),
   ("THB", Rat.divInt 352 10)]

/-- UNIT_CONVERSIONS: unit name to (base dimension, factor to the base unit). -/
def UNIT_CONVERSIONS : List (String × String × ℚ) :=
  [("kg", ("kg", Rat.divInt 1 1)),
   ("lbs", ("kg", Rat.divInt 453592 1000000)),
   ("lb", ("kg", Rat.divInt 453592 1000000)),
   ("tons", ("kg", Rat.divInt 1000 1)),
   ("oz", ("kg", Rat.divInt 283495 10000000)),
   ("g", ("kg", Rat.divInt 1 1000)),
   ("meters", ("meters", Rat.divInt 1 1)),
   ("feet", ("meters", Rat.divInt 3048 10000)),
   ("ft", ("meters", Rat.divInt 3048 10000)),
   ("inches", ("meters", Rat.divInt 254 10000)),
   ("in", ("meters", Rat.divInt 254 10000)),
   ("yards", ("meters", Rat.divInt 9144 10000)),
   ("yd", ("meters", Rat.divInt 9144 10000)),
   ("mm", ("meters", Rat.divInt 1 1000)),
   ("cm", ("meters", Rat.divInt 1 100)),
   ("liters", ("liters", Rat.divInt 1 1)),
   ("gallons", ("liters", Rat.divInt 378541 100000)),
   ("gal", ("liters", Rat.divInt 378541 100000)),
   ("ml", ("liters", Rat.divInt 1 1000)),
   ("each", ("each", Rat.divInt 1 1)),
   ("pcs", ("each", Rat.divInt 1 1)),
   ("units", ("each", Rat.divInt 1 1)),
   ("sets", ("sets", Rat.divInt 1 1)),
   ("lots", ("lots", Rat.divInt 1 1)),
   ("rolls", ("rolls", Rat.divInt 1 1)),
   ("sheets", ("sheets", Rat.divInt 1 1)),
   ("boxes", ("boxes", Rat.divInt 1 1)),
   ("pallets", ("pallets", Rat.divInt 1 1))]

/-- Base dimension of a unit, when the unit is known. -/
def uomBase (u : String) : Option String :=
  (UNIT_CONVERSIONS.lookup u).map Prod.fst

/-- INCOTERM_ADDERS: approximate freight share of the price per incoterm. -/
def INCOTERM_ADDERS : List (String × ℚ) :=
  [("EXW", Rat.divInt 0 100),
   ("FCA", Rat.divInt 2 100),
   ("FOB", Rat.divInt 5 100),
   ("CFR", Rat.divInt 8 100),
   ("CIF", Rat.divInt 10 100),
   ("DAP", Rat.divInt 12 100),
   ("DDP", Rat.divInt 15 100)]

/-- Python `str.upper` on the ASCII code strings the engine handles. -/
def pyUpper (s : String) : String :=
  String.mk (s.data.map Char.toUpper)

/-- Python `str.lower` on the ASCII code strings the engine handles. -/
def pyLower (s : String) : String :=
  String.mk (s.data.map Char.toLower)

/-- An input quote.  `none` marks a field absent from the quote dict. -/
structure Quote where
  supplier_id : Option String
  supplier_name : Option String
  unit_price : Option ℚ
  currency : Option String
  unit_of_measure : Option String
  quantity_offered : Option ℚ
  moq : Option ℚ
  lead_time_days : Option ℤ
  incoterm : Option String
  deriving DecidableEq, Repr

/-- One side of the `normalization_details` breakdown. -/
structure DetailSide where
  price : ℚ
  currency : String
  uom : String
  incoterm : String
  deriving DecidableEq, Repr

/-- A successfully normalized quote: the original quote fields (the Python
dict spread) plus the derived fields.  The `moq_warning` message is modelled
by its presence. -/
structure OkRecord where
  quote : Quote
  normalized_unit_price : ℚ
  normalized_total : ℚ
  currency_converted : Bool
  uom_converted : Bool
  incoterm_adjusted : Bool
  exchange_rate_used : ℚ
  lead_time_score : Option ℤ
  moq_warning : Bool
  original_detail : DetailSide
  normalized_detail : DetailSide
  deriving DecidableEq, Repr

/-- An output record: either a normalized quote or the original quote with
null normalized price/total and a `normalization_error` message. -/
inductive NormRecord where
  | ok (r : OkRecord)
  | err (q : Quote) (msg : String)
  deriving DecidableEq, Repr

/-- The `normalized_unit_price` field of an output record (`none` is Python
`None`, carried by error records). -/
def NormRecord.nupField : NormRecord → Option ℚ
  | .ok r => some r.normalized_unit_price
  | .err _ _ => none

/-- The `normalized_total` field of an output record. -/
def NormRecord.totalField : NormRecord → Option ℚ
  | .ok r => some r.normalized_total
  | .err _ _ => none

/-- The `normalization_error` field of an output record. -/
def NormRecord.errorField : NormRecord → Option String
  | .ok _ => none
  | .err _ e => some e

/-- The original quote fields carried by an output record (the `**quote`
spread present in both the success and the error shape). -/
def NormRecord.sourceQuote : NormRecord → Quote
  | .ok r => r.quote
  | .err q _ => q

/-- Restriction of an output record to its ok payload. -/
def NormRecord.toOk : NormRecord → Option OkRecord
  | .ok r => some r
  | .err _ _ => none

/-- An entry of the returned ranking. -/
structure RankEntry where
  rank : ℕ
  supplier_id : Option String
  supplier_name : Option String
  normalized_unit_price : ℚ
  deriving DecidableEq, Repr

/-- The value returned by `normalize_quotes`. -/
structure NormalizationResult where
  base_currency : String
  base_uom : String
  base_incoterm : String
  normalized_quotes : List NormRecord
  ranking : List RankEntry
  warnings : List String

/-- `_get_rate`: exchange rate between two currencies, `usd(to) / usd(from)`
quantized to 6 decimals, or a per-currency error. -/
def get_rate (rates : List (String × ℚ)) (from_currency to_currency : String) :
    Except String ℚ :=
  if from_currency = to_currency then .ok (Rat.divInt 1 1)
  else
    match rates.lookup from_currency with
    | none => .error ("Unsupported currency: " ++ from_currency)
    | some from_usd =>
      match rates.lookup to_currency with
      | none => .error ("Unsupported currency: " ++ to_currency)
      | some to_usd => .ok (quantHalfEven 6 (qDiv to_usd from_usd))

/-- `_convert_currency`: convert an amount between currencies; the amount is
returned untouched (no table lookup) when the codes coincide. -/
def convert_currency (rates : List (String × ℚ)) (amount : ℚ)
    (from_currency to_currency : String) : Except String ℚ :=
  if from_currency = to_currency then .ok amount
  else do
    let rate ← get_rate rates from_currency to_currency
    pure (qMul amount rate)

/-- `_convert_uom`: convert a per-unit price between units of measure.
Unknown units and units of different base dimensions pass through silently. -/
def convert_uom (price_per_unit : ℚ) (from_uom to_uom : String) : ℚ :=
  if from_uom = to_uom then price_per_unit
  else
    match UNIT_CONVERSIONS.lookup from_uom, UNIT_CONVERSIONS.lookup to_uom with
    | some from_conv, some to_conv =>
      if from_conv.1 ≠ to_conv.1 then price_per_unit
      else qDiv price_per_unit (qDiv from_conv.2 to_conv.2)
    | _, _ => price_per_unit

/-- `_adjust_incoterm`: re-baseline the price through an implied EXW price. -/
def adjust_incoterm (price : ℚ) (from_incoterm to_incoterm : String) : ℚ :=
  if from_incoterm = to_incoterm then price
  else
    let from_adder := (INCOTERM_ADDERS.lookup from_incoterm).getD (Rat.divInt 5 100)
    let to_adder := (INCOTERM_ADDERS.lookup to_incoterm).getD (Rat.divInt 5 100)
    qMul (qDiv price (qAdd (Rat.divInt 1 1) from_adder)) (qAdd (Rat.divInt 1 1) to_adder)

/-- `_score_lead_time`: banded 0-100 score, `none` for an absent lead time. -/
def score_lead_time (lead_time_days : Option ℤ) : Option ℤ :=
  match lead_time_days with
  | none => none
  | some d =>
    some (if d ≤ 7 then 100 else if d ≤ 14 then 85 else if d ≤ 30 then 70
      else if d ≤ 60 then 50 else if d ≤ 90 then 30 else 10)

/-- The effective quantity of `_normalize_single_quote` step 4:
`buyer_quantity or Decimal(str(quote.get("quantity_offered", 1)))`.
Python `or` falls through both on `None` and on a zero buyer quantity. -/
def effectiveQuantity (buyer_quantity : Option ℚ) (quantity_offered : Option ℚ) : ℚ :=
  match buyer_quantity with
  | some q => if q = 0 then quantity_offered.getD (Rat.divInt 1 1) else q
  | none => quantity_offered.getD (Rat.divInt 1 1)

/-- The pure tail of `_normalize_single_quote` (steps 2-6 and the returned
record), given the currency-converted price and the reported exchange rate
(the two values whose computation can fail). -/
def buildRecord (quote : Quote) (target_currency target_uom target_incoterm : String)
    (buyer_quantity : Option ℚ) (price_in_target rate : ℚ) : OkRecord :=
  let source_currency := pyUpper (quote.currency.getD ("USD"))
  let source_uom := pyLower (quote.unit_of_measure.getD target_uom)
  let source_incoterm := pyUpper (quote.incoterm.getD ("FOB"))
  let price_in_target_uom := convert_uom price_in_target source_uom (pyLower target_uom)
  let price_landed := adjust_incoterm price_in_target_uom source_incoterm target_incoterm
  let quantity := effectiveQuantity buyer_quantity quote.quantity_offered
  let total := quantHalfUp 2 (qMul price_landed quantity)
  let moq_warning :=
    match quote.moq, buyer_quantity with
    | some m, some bq => !(decide (m = 0)) && !(decide (bq = 0)) && qltB bq m
    | _, _ => false
  { quote := quote
    normalized_unit_price := quantHalfUp 4 price_landed
    normalized_total := total
    currency_converted := source_currency ≠ target_currency
    uom_converted := source_uom ≠ pyLower target_uom
    incoterm_adjusted := source_incoterm ≠ target_incoterm
    exchange_rate_used := rate
    lead_time_score := score_lead_time quote.lead_time_days
    moq_warning := moq_warning
    original_detail :=
      { price := quote.unit_price.getD (Rat.divInt 0 1), currency := source_currency
        uom := source_uom, incoterm := source_incoterm }
    normalized_detail :=
      { price := price_landed, currency := target_currency
        uom := target_uom, incoterm := target_incoterm } }

/-- `_normalize_single_quote`: the per-quote pipeline
(currency → UoM → incoterm → total, MOQ check, lead-time score).  The two
fallible computations (the currency conversion of step 1 and the reported
exchange rate) are sequenced first; the remaining steps cannot fail. -/
def normalize_single_quote (rates : List (String × ℚ)) (quote : Quote)
    (target_currency target_uom target_incoterm : String)
    (buyer_quantity : Option ℚ) : Except String OkRecord :=
  let original_price := quote.unit_price.getD (Rat.divInt 0 1)
  let source_currency := pyUpper (quote.currency.getD ("USD"))
  match convert_currency rates original_price source_currency target_currency with
  | .error e => .error e
  | .ok price_in_target =>
    match get_rate rates source_currency target_currency with
    | .error e => .error e
    | .ok rate =>
      .ok (buildRecord quote target_currency target_uom target_incoterm buyer_quantity
        price_in_target rate)

/-- The per-quote step of the batch loop: a success record, or the original
quote with null normalized values and the error message. -/
def processQuote (rates : List (String × ℚ)) (target_currency target_uom
    target_incoterm : String) (buyer_quantity : Option ℚ) (quote : Quote) :
    NormRecord :=
  match normalize_single_quote rates quote target_currency target_uom
      target_incoterm buyer_quantity with
  | .ok r => .ok r
  | .error e => .err quote e

/-- The supplier label used in batch warnings:
`quote.get("supplier_name", quote.get("supplier_id", "Unknown"))`. -/
def supplierLabel (q : Quote) : String :=
  q.supplier_name.getD (q.supplier_id.getD ("Unknown"))

/-- Sort order used for the ranking: ascending `normalized_unit_price`.
Python `sorted` is a stable sort with respect to this total preorder, so any
stable sort (here: insertion sort) realizes it. -/
def priceRel (a b : OkRecord) : Prop :=
  qleB a.normalized_unit_price b.normalized_unit_price = true

instance : DecidableRel priceRel :=
  fun a b => inferInstanceAs (Decidable (_ = true))

instance : IsTotal OkRecord priceRel :=
  ⟨fun a b => by
    rcases le_total a.normalized_unit_price b.normalized_unit_price with h | h
    · exact Or.inl (decide_eq_true (Rat.le_def.mp h))
    · exact Or.inr (decide_eq_true (Rat.le_def.mp h))⟩

instance : IsTrans OkRecord priceRel :=
  ⟨fun a b c hab hbc => decide_eq_true (Rat.le_def.mp
    (le_trans (Rat.le_def.mpr (of_decide_eq_true hab))
      (Rat.le_def.mpr (of_decide_eq_true hbc))))⟩

/-- Enumerate the sorted records with ranks `k, k+1, …` (the loop
`for i, q in enumerate(ranked, 1)` together with the ranking projection). -/
def rankEntries : ℕ → List OkRecord → List RankEntry
  | _, [] => []
  | k, r :: rs =>
    { rank := k, supplier_id := r.quote.supplier_id
      supplier_name := r.quote.supplier_name
      normalized_unit_price := r.normalized_unit_price } :: rankEntries (k + 1) rs

/-- The savings-potential warning prepended when at least two quotes are
ranked and the worst price is positive.  The percentage is the exact decimal
value rounded to one place (Python computes it on binary floats and then
formats it; the exact-decimal rendering is used here). -/
def savingsWarnings (ranked : List OkRecord) : List String :=
  match ranked.head?, ranked.getLast? with
  | some best, some worst =>
    if 2 ≤ ranked.length then
      if qltB 0 worst.normalized_unit_price then
        ["💡 Potential savings: " ++
          toString (quantHalfEven 1 (qMul (qDiv
            (qSub worst.normalized_unit_price best.normalized_unit_price)
            worst.normalized_unit_price) (Rat.divInt 100 1))) ++
          "% between lowest and highest quote."]
      else []
    else []
  | _, _ => []

/-- `normalize_quotes`: normalize every quote, collect per-quote warnings,
rank the successfully normalized quotes by ascending normalized unit price
and return the full result. -/
def normalize_quotes (rates : List (String × ℚ)) (buyer_currency buyer_uom : String)
    (buyer_quantity : Option ℚ) (buyer_incoterm : String) (quotes : List Quote) :
    NormalizationResult :=
  let bc := pyUpper buyer_currency
  let bi := if buyer_incoterm = "" then "FOB" else pyUpper buyer_incoterm
  let normalized := quotes.map (processQuote rates bc buyer_uom bi buyer_quantity)
  let perQuoteWarnings := quotes.filterMap fun q =>
    match normalize_single_quote rates q bc buyer_uom bi buyer_quantity with
    | .ok _ => none
    | .error e =>
      some ("Could not normalize quote from " ++ supplierLabel q ++ ": " ++ e)
  let ranked := List.insertionSort priceRel (normalized.filterMap NormRecord.toOk)
  { base_currency := bc
    base_uom := buyer_uom
    base_incoterm := bi
    normalized_quotes := normalized
    ranking := rankEntries 1 ranked
    warnings := savingsWarnings ranked ++ perQuoteWarnings }

/-- Data of a ranking entry other than the rank (what the ranking projection
copies out of a ranked record). -/
def entryData (e : RankEntry) : Option String × Option String × ℚ :=
  (e.supplier_id, e.supplier_name, e.normalized_unit_price)

/-- The same data, read off a normalized record. -/
def recordData (r : OkRecord) : Option String × Option String × ℚ :=
  (r.quote.supplier_id, r.quote.supplier_name, r.normalized_unit_price)

/-- Round-trip tolerance check for one ordered pair of USD values of the
rate table: the product of the two quantized cross-rates is within 1/1000
of 1. -/
def pairTolOk (x y : ℚ) : Bool :=
  qleB (qAbs (qSub (qMul (quantHalfEven 6 (qDiv y x)) (quantHalfEven 6 (qDiv x y)))
    (Rat.divInt 1 1))) (Rat.divInt 1 1000)

/-- Round-trip tolerance check over the whole static rate table. -/
def tableRoundTripOk : Bool :=
  STATIC_EXCHANGE_RATES.all fun p => STATIC_EXCHANGE_RATES.all fun q => pairTolOk p.2 q.2

/-- A quote used by concrete evaluations: all optional fields empty except
the ones supplied. -/
def baseQuote : Quote :=
  { supplier_id := none, supplier_name := none, unit_price := none,
    currency := none, unit_of_measure := none, quantity_offered := none,
    moq := none, lead_time_days := none, incoterm := none }

/-- Concrete input of the §6 currency+UoM scenario: 10.00 EUR per kg, FOB. -/
def scenarioQuote : Quote :=
  { baseQuote with
    supplier_id := some ("s1"),
    unit_price := some (Rat.divInt 10 1), currency := some ("EUR"),
    unit_of_measure := some ("kg"), incoterm := some ("FOB") }

/-- Concrete quote priced 10 USD per kg FOB (used for identity-shaped runs). -/
def usdKgQuote : Quote :=
  { baseQuote with
    unit_price := some (Rat.divInt 10 1),
    currency := some ("USD"), unit_of_measure := some ("kg"),
    incoterm := some ("FOB") }

/-- The same quote offering quantity 5 (buyer-quantity-zero counterexample). -/
def offeredFiveQuote : Quote :=
  { usdKgQuote with
    quantity_offered := some (Rat.divInt 5 1) }

/-- A quote with the unit price field missing entirely. -/
def missingPriceQuote : Quote :=
  { baseQuote with
    currency := some ("USD"), unit_of_measure := some ("kg"),
    incoterm := some ("FOB") }

/-- A quote in an unknown currency. -/
def unknownCurrencyQuote : Quote :=
  { baseQuote with
    supplier_id := some ("s9"), supplier_name := some ("Gamma"),
    unit_price := some (Rat.divInt 7 1), currency := some ("xyz"),
    unit_of_measure := some ("kg"), incoterm := some ("FOB") }

/-- A well-formed quote at 2 USD per kg from supplier Alpha. -/
def alphaQuote : Quote :=
  { baseQuote with
    supplier_id := some ("s1"), supplier_name := some ("Alpha"),
    unit_price := some (Rat.divInt 2 1), currency := some ("USD"),
    unit_of_measure := some ("kg"), incoterm := some ("FOB") }

/-- A well-formed quote at 1 USD per kg from supplier Beta. -/
def betaQuote : Quote :=
  { baseQuote with
    supplier_id := some ("s2"), supplier_name := some ("Beta"),
    unit_price := some (Rat.divInt 1 1), currency := some ("USD"),
    unit_of_measure := some ("kg"), incoterm := some ("FOB") }

/-- A quote whose currency code is not in any table, for identity-currency
runs against an empty rate table. -/
def zedQuote : Quote :=
  { baseQuote with
    unit_price := some (Rat.divInt 3 1),
    currency := some ("zzz"), unit_of_measure := some ("kg"),
    incoterm := some ("FOB") }

/- ------------------------------------------------------------------ -/
/- Theorems.                                                          -/
/- ------------------------------------------------------------------ -/

theorem qAdd_eq (a b : ℚ) : qAdd a b = a + b := by
  have ha : (a.den : ℚ) ≠ 0 := Nat.cast_ne_zero.mpr a.den_nz
  have hb : (b.den : ℚ) ≠ 0 := Nat.cast_ne_zero.mpr b.den_nz
  rw [qAdd, Rat.divInt_eq_div]
  push_cast
  conv_rhs => rw [← Rat.num_div_den a, ← Rat.num_div_den b]
  rw [div_add_div _ _ ha hb]
  ring_nf

theorem qSub_eq (a b : ℚ) : qSub a b = a - b := by
  have ha : (a.den : ℚ) ≠ 0 := Nat.cast_ne_zero.mpr a.den_nz
  have hb : (b.den : ℚ) ≠ 0 := Nat.cast_ne_zero.mpr b.den_nz
  rw [qSub, Rat.divInt_eq_div]
  push_cast
  conv_rhs => rw [← Rat.num_div_den a, ← Rat.num_div_den b]
  rw [div_sub_div _ _ ha hb]
  ring_nf

theorem qMul_eq (a b : ℚ) : qMul a b = a * b := by
  rw [qMul, Rat.divInt_eq_div]
  push_cast
  conv_rhs => rw [← Rat.num_div_den a, ← Rat.num_div_den b]
  rw [div_mul_div_comm]

theorem qNeg_eq (a : ℚ) : qNeg a = -a := by
  rw [qNeg, Rat.divInt_eq_div]
  push_cast
  conv_rhs => rw [← Rat.num_div_den a]
  rw [neg_div]

theorem qDiv_eq (a b : ℚ) : qDiv a b = a / b := by
  by_cases hb : b = 0
  · subst hb
    simp [qDiv]
  · have ha : (a.den : ℚ) ≠ 0 := Nat.cast_ne_zero.mpr a.den_nz
    have hbd : (b.den : ℚ) ≠ 0 := Nat.cast_ne_zero.mpr b.den_nz
    have hbn : (b.num : ℚ) ≠ 0 := by
      exact_mod_cast Rat.num_ne_zero.mpr hb
    rw [qDiv, Rat.divInt_eq_div]
    push_cast
    conv_rhs => rw [← Rat.num_div_den a, ← Rat.num_div_den b]
    rw [div_div_div_comm]
    field_simp
    exact Or.inl (mul_comm _ _)

theorem qleB_iff (a b : ℚ) : qleB a b = true ↔ a ≤ b := by
  rw [qleB, decide_eq_true_iff]
  exact Rat.le_def.symm

theorem qltB_iff (a b : ℚ) : qltB a b = true ↔ a < b := by
  rw [qltB, Bool.not_eq_true', ← Bool.not_eq_true, qleB_iff, not_le]

theorem qAbs_eq (a : ℚ) : qAbs a = |a| := by
  rw [qAbs]
  by_cases h : qleB 0 a = true
  · rw [if_pos h, abs_of_nonneg ((qleB_iff 0 a).mp h)]
  · rw [if_neg h, qNeg_eq,
      abs_of_neg (not_le.mp (fun hle => h ((qleB_iff 0 a).mpr hle)))]

theorem normalize_quotes_normalized (rates : List (String × ℚ)) (bc buom : String)
    (bq : Option ℚ) (bi : String) (quotes : List Quote) :
    (normalize_quotes rates bc buom bq bi quotes).normalized_quotes
    = quotes.map (processQuote rates (pyUpper bc) buom
        (if bi = "" then "FOB" else pyUpper bi) bq) := rfl

theorem normalize_quotes_ranking_def (rates : List (String × ℚ)) (bc buom : String)
    (bq : Option ℚ) (bi : String) (quotes : List Quote) :
    (normalize_quotes rates bc buom bq bi quotes).ranking
    = rankEntries 1 (List.insertionSort priceRel
        ((quotes.map (processQuote rates (pyUpper bc) buom
          (if bi = "" then "FOB" else pyUpper bi) bq)).filterMap NormRecord.toOk)) := rfl

theorem normalize_quotes_warnings_def (rates : List (String × ℚ)) (bc buom : String)
    (bq : Option ℚ) (bi : String) (quotes : List Quote) :
    (normalize_quotes rates bc buom bq bi quotes).warnings
    = savingsWarnings (List.insertionSort priceRel
        ((quotes.map (processQuote rates (pyUpper bc) buom
          (if bi = "" then "FOB" else pyUpper bi) bq)).filterMap NormRecord.toOk))
      ++ quotes.filterMap (fun q =>
        match normalize_single_quote rates q (pyUpper bc) buom
            (if bi = "" then "FOB" else pyUpper bi) bq with
        | .ok _ => none
        | .error e =>
          some ("Could not normalize quote from " ++ supplierLabel q ++ ": " ++ e)) := rfl

theorem nsq_ok_elim (rates : List (String × ℚ)) (quote : Quote)
    (tc tuom ti : String) (bq : Option ℚ) (r : OkRecord)
    (h : normalize_single_quote rates quote tc tuom ti bq = .ok r) :
    ∃ pc rt,
      convert_currency rates (quote.unit_price.getD (Rat.divInt 0 1))
        (pyUpper (quote.currency.getD ("USD"))) tc = .ok pc
      ∧ get_rate rates (pyUpper (quote.currency.getD ("USD"))) tc = .ok rt
      ∧ r = buildRecord quote tc tuom ti bq pc rt := by
  rw [normalize_single_quote] at h
  cases h1 : convert_currency rates (quote.unit_price.getD (Rat.divInt 0 1))
      (pyUpper (quote.currency.getD ("USD"))) tc with
  | error e => rw [h1] at h; exact absurd h (by simp)
  | ok pc =>
    rw [h1] at h
    cases h2 : get_rate rates (pyUpper (quote.currency.getD ("USD"))) tc with
    | error e => rw [h2] at h; exact absurd h (by simp)
    | ok rt =>
      rw [h2] at h
      simp only [Except.ok.injEq] at h
      exact ⟨pc, rt, rfl, rfl, h.symm⟩

theorem nsq_ok_intro (rates : List (String × ℚ)) (quote : Quote)
    (tc tuom ti : String) (bq : Option ℚ) (pc rt : ℚ)
    (h1 : convert_currency rates (quote.unit_price.getD (Rat.divInt 0 1))
      (pyUpper (quote.currency.getD ("USD"))) tc = .ok pc)
    (h2 : get_rate rates (pyUpper (quote.currency.getD ("USD"))) tc = .ok rt) :
    normalize_single_quote rates quote tc tuom ti bq
      = .ok (buildRecord quote tc tuom ti bq pc rt) := by
  rw [normalize_single_quote, h1, h2]

theorem nsq_error_intro (rates : List (String × ℚ)) (quote : Quote)
    (tc tuom ti : String) (bq : Option ℚ) (e : String)
    (h1 : convert_currency rates (quote.unit_price.getD (Rat.divInt 0 1))
      (pyUpper (quote.currency.getD ("USD"))) tc = .error e) :
    normalize_single_quote rates quote tc tuom ti bq = .error e := by
  rw [normalize_single_quote, h1]

theorem nsq_ok_quote (rates : List (String × ℚ)) (quote : Quote)
    (tc tuom ti : String) (bq : Option ℚ) (r : OkRecord)
    (h : normalize_single_quote rates quote tc tuom ti bq = .ok r) :
    r.quote = quote := by
  obtain ⟨pc, rt, -, -, hr⟩ := nsq_ok_elim rates quote tc tuom ti bq r h
  rw [hr]
  rfl

theorem convert_currency_same (rates : List (String × ℚ)) (a : ℚ) (c : String) :
    convert_currency rates a c c = .ok a := by
  simp [convert_currency]

theorem get_rate_same (rates : List (String × ℚ)) (c : String) :
    get_rate rates c c = .ok (Rat.divInt 1 1) := by
  simp [get_rate]

theorem get_rate_unknown_from (rates : List (String × ℚ)) (f t : String)
    (hne : f ≠ t) (hl : rates.lookup f = none) :
    get_rate rates f t = .error ("Unsupported currency: " ++ f) := by
  rw [get_rate, if_neg hne, hl]

theorem convert_currency_unknown_from (rates : List (String × ℚ)) (a : ℚ)
    (f t : String) (hne : f ≠ t) (hl : rates.lookup f = none) :
    convert_currency rates a f t = .error ("Unsupported currency: " ++ f) := by
  rw [convert_currency, if_neg hne, get_rate_unknown_from rates f t hne hl]
  rfl

/-- Claim C10: a quote whose (uppercased) currency equals the target currency
never produces an unsupported-currency error, whatever the rate table holds:
the currency step returns the price unchanged without a table lookup, and the
record reports an exchange rate of exactly 1. -/
theorem C10_identity_currency_no_lookup (rates : List (String × ℚ)) (quote : Quote)
    (tc tuom ti : String) (bq : Option ℚ)
    (hc : pyUpper (quote.currency.getD ("USD")) = tc) :
    (∀ p : ℚ, convert_currency rates p tc tc = .ok p)
    ∧ get_rate rates tc tc = .ok (Rat.divInt 1 1)
    ∧ ∃ r, normalize_single_quote rates quote tc tuom ti bq = .ok r
        ∧ r.exchange_rate_used = Rat.divInt 1 1 := by
  refine ⟨fun p => convert_currency_same rates p tc, get_rate_same rates tc, ?_⟩
  refine ⟨buildRecord quote tc tuom ti bq (quote.unit_price.getD (Rat.divInt 0 1))
    (Rat.divInt 1 1), ?_, rfl⟩
  exact nsq_ok_intro rates quote tc tuom ti bq _ _
    (by rw [hc]; exact convert_currency_same rates _ tc)
    (by rw [hc]; exact get_rate_same rates tc)

/-- Witness for C10 at a concrete input: an empty rate table and the currency
code ZZZ, absent from every table, still normalize successfully. -/
theorem C10_identity_currency_no_lookup_witness :
    pyUpper (zedQuote.currency.getD ("USD")) = "ZZZ"
    ∧ ((∀ p : ℚ, convert_currency [] p ("ZZZ") ("ZZZ") = .ok p)
      ∧ get_rate [] ("ZZZ") ("ZZZ") = .ok (Rat.divInt 1 1)
      ∧ ∃ r, normalize_single_quote [] zedQuote ("ZZZ") ("kg") ("FOB") none = .ok r
          ∧ r.exchange_rate_used = Rat.divInt 1 1) :=
  ⟨by decide, C10_identity_currency_no_lookup [] zedQuote ("ZZZ") ("kg") ("FOB") none
    (by decide)⟩

/-- Claim C5: a quote already in the target currency, unit of measure and
incoterm (after case normalization) normalizes to exactly the original unit
price rounded to 4 decimal places, half-up. -/
theorem C5_identity_pipeline (rates : List (String × ℚ)) (quote : Quote)
    (tc tuom ti : String) (bq : Option ℚ)
    (hc : pyUpper (quote.currency.getD ("USD")) = tc)
    (hu : pyLower (quote.unit_of_measure.getD tuom) = pyLower tuom)
    (hi : pyUpper (quote.incoterm.getD ("FOB")) = ti) :
    ∃ r, normalize_single_quote rates quote tc tuom ti bq = .ok r
      ∧ r.normalized_unit_price
          = quantHalfUp 4 (quote.unit_price.getD (Rat.divInt 0 1)) := by
  refine ⟨buildRecord quote tc tuom ti bq (quote.unit_price.getD (Rat.divInt 0 1))
    (Rat.divInt 1 1), ?_, ?_⟩
  · exact nsq_ok_intro rates quote tc tuom ti bq _ _
      (by rw [hc]; exact convert_currency_same rates _ tc)
      (by rw [hc]; exact get_rate_same rates tc)
  · simp [buildRecord, hu, hi, convert_uom, adjust_incoterm]

/-- Witness for C5 at a concrete input: 10 USD per kg FOB against target
(USD, kg, FOB) keeps the price 10.0000. -/
theorem C5_identity_pipeline_witness :
    pyUpper (usdKgQuote.currency.getD ("USD")) = "USD"
    ∧ pyLower (usdKgQuote.unit_of_measure.getD ("kg")) = pyLower ("kg")
    ∧ pyUpper (usdKgQuote.incoterm.getD ("FOB")) = "FOB"
    ∧ ∃ r, normalize_single_quote STATIC_EXCHANGE_RATES usdKgQuote
        ("USD") ("kg") ("FOB") none = .ok r
      ∧ r.normalized_unit_price
          = quantHalfUp 4 (usdKgQuote.unit_price.getD (Rat.divInt 0 1)) :=
  ⟨by decide, by decide, by decide,
    C5_identity_pipeline STATIC_EXCHANGE_RATES usdKgQuote ("USD") ("kg") ("FOB") none
      (by decide) (by decide) (by decide)⟩

/-- Claim C2: the batch output keeps exactly one record per input quote, in
input order: the list of output records projects back onto the input list,
and every position holds the per-quote processing (a success or an error
record) of the quote at the same position. -/
theorem C2_no_data_loss (rates : List (String × ℚ)) (bc buom : String)
    (bq : Option ℚ) (bi : String) (quotes : List Quote) :
    (normalize_quotes rates bc buom bq bi quotes).normalized_quotes.length = quotes.length
    ∧ (normalize_quotes rates bc buom bq bi quotes).normalized_quotes.map
        NormRecord.sourceQuote = quotes
    ∧ ∀ i : ℕ, (normalize_quotes rates bc buom bq bi quotes).normalized_quotes[i]?
        = (quotes[i]?).map (processQuote rates (pyUpper bc) buom
            (if bi = "" then "FOB" else pyUpper bi) bq) := by
  rw [normalize_quotes_normalized]
  refine ⟨by simp, ?_, fun i => by simp⟩
  rw [List.map_map]
  have hsq : ∀ q : Quote, NormRecord.sourceQuote (processQuote rates (pyUpper bc) buom
      (if bi = "" then "FOB" else pyUpper bi) bq q) = q := by
    intro q
    rw [processQuote]
    cases h : normalize_single_quote rates q (pyUpper bc) buom
        (if bi = "" then "FOB" else pyUpper bi) bq with
    | ok r =>
      simpa [NormRecord.sourceQuote] using nsq_ok_quote rates q (pyUpper bc) buom
        (if bi = "" then "FOB" else pyUpper bi) bq r h
    | error e => rfl
  calc quotes.map (NormRecord.sourceQuote ∘ processQuote rates (pyUpper bc) buom
        (if bi = "" then "FOB" else pyUpper bi) bq)
      = quotes.map id := List.map_congr_left (fun q _ => hsq q)
    _ = quotes := List.map_id quotes

/-- Claim C4: a quote whose currency is absent from the rate table (and is
not the target currency) yields an error record at its own position — null
normalized price and total plus the error message — and a per-quote warning
string, while the batch keeps one record per quote. -/
theorem C4_unsupported_currency (rates : List (String × ℚ)) (bc buom : String)
    (bq : Option ℚ) (bi : String) (quotes : List Quote) (i : ℕ) (q : Quote)
    (hq : quotes[i]? = some q)
    (hl : rates.lookup (pyUpper (q.currency.getD ("USD"))) = none)
    (hne : pyUpper (q.currency.getD ("USD")) ≠ pyUpper bc) :
    (normalize_quotes rates bc buom bq bi quotes).normalized_quotes[i]?
        = some (.err q ("Unsupported currency: " ++ pyUpper (q.currency.getD ("USD"))))
    ∧ ((normalize_quotes rates bc buom bq bi quotes).normalized_quotes[i]?).map
        NormRecord.nupField = some none
    ∧ ((normalize_quotes rates bc buom bq bi quotes).normalized_quotes[i]?).map
        NormRecord.totalField = some none
    ∧ ("Could not normalize quote from " ++ supplierLabel q ++ ": "
        ++ ("Unsupported currency: " ++ pyUpper (q.currency.getD ("USD"))))
        ∈ (normalize_quotes rates bc buom bq bi quotes).warnings
    ∧ (normalize_quotes rates bc buom bq bi quotes).normalized_quotes.length
        = quotes.length := by
  have herr : normalize_single_quote rates q (pyUpper bc) buom
      (if bi = "" then "FOB" else pyUpper bi) bq
      = .error ("Unsupported currency: " ++ pyUpper (q.currency.getD ("USD"))) :=
    nsq_error_intro rates q (pyUpper bc) buom (if bi = "" then "FOB" else pyUpper bi)
      bq _ (convert_currency_unknown_from rates _ _ (pyUpper bc) hne hl)
  have hrec : (normalize_quotes rates bc buom bq bi quotes).normalized_quotes[i]?
      = some (.err q ("Unsupported currency: " ++ pyUpper (q.currency.getD ("USD")))) := by
    rw [normalize_quotes_normalized]
    simp only [List.getElem?_map, hq, Option.map_some]
    simp [processQuote, herr]
  refine ⟨hrec, by rw [hrec]; rfl, by rw [hrec]; rfl, ?_, by
    rw [normalize_quotes_normalized]; simp⟩
  rw [normalize_quotes_warnings_def]
  refine List.mem_append.mpr (Or.inr ?_)
  refine List.mem_filterMap.mpr ⟨q, ?_, ?_⟩
  · exact List.getElem?_mem hq
  · rw [herr]

/-- Witness for C4 at a concrete input: a two-quote batch where the second
quote is priced in the unknown currency xyz. -/
theorem C4_unsupported_currency_witness :
    [alphaQuote, unknownCurrencyQuote][1]? = some unknownCurrencyQuote
    ∧ STATIC_EXCHANGE_RATES.lookup
        (pyUpper (unknownCurrencyQuote.currency.getD ("USD"))) = none
    ∧ pyUpper (unknownCurrencyQuote.currency.getD ("USD")) ≠ pyUpper ("usd")
    ∧ ((normalize_quotes STATIC_EXCHANGE_RATES ("usd") ("kg") none ("FOB")
          [alphaQuote, unknownCurrencyQuote]).normalized_quotes[1]?
        = some (.err unknownCurrencyQuote ("Unsupported currency: "
            ++ pyUpper (unknownCurrencyQuote.currency.getD ("USD"))))
      ∧ ((normalize_quotes STATIC_EXCHANGE_RATES ("usd") ("kg") none ("FOB")
          [alphaQuote, unknownCurrencyQuote]).normalized_quotes[1]?).map
          NormRecord.nupField = some none
      ∧ ((normalize_quotes STATIC_EXCHANGE_RATES ("usd") ("kg") none ("FOB")
          [alphaQuote, unknownCurrencyQuote]).normalized_quotes[1]?).map
          NormRecord.totalField = some none
      ∧ ("Could not normalize quote from " ++ supplierLabel unknownCurrencyQuote ++ ": "
          ++ ("Unsupported currency: "
            ++ pyUpper (unknownCurrencyQuote.currency.getD ("USD"))))
          ∈ (normalize_quotes STATIC_EXCHANGE_RATES ("usd") ("kg") none ("FOB")
            [alphaQuote, unknownCurrencyQuote]).warnings
      ∧ (normalize_quotes STATIC_EXCHANGE_RATES ("usd") ("kg") none ("FOB")
          [alphaQuote, unknownCurrencyQuote]).normalized_quotes.length
          = [alphaQuote, unknownCurrencyQuote].length) :=
  ⟨by decide, by decide, by decide,
    C4_unsupported_currency STATIC_EXCHANGE_RATES ("usd") ("kg") none ("FOB")
      [alphaQuote, unknownCurrencyQuote] 1 unknownCurrencyQuote
      (by decide) (by decide) (by decide)⟩

theorem convert_uom_zero (s t : String) : convert_uom 0 s t = 0 := by
  rw [convert_uom]
  split
  · rfl
  · cases h1 : UNIT_CONVERSIONS.lookup s with
    | none => rfl
    | some p1 =>
      cases h2 : UNIT_CONVERSIONS.lookup t with
      | none => rfl
      | some p2 =>
        show (if p1.1 ≠ p2.1 then (0:ℚ) else qDiv 0 (qDiv p1.2 p2.2)) = 0
        by_cases hb : p1.1 ≠ p2.1
        · rw [if_pos hb]
        · rw [if_neg hb, qDiv_eq, zero_div]

theorem adjust_incoterm_zero (a b : String) : adjust_incoterm 0 a b = 0 := by
  rw [adjust_incoterm]
  split
  · rfl
  · rw [qMul_eq, qDiv_eq, zero_div, zero_mul]

theorem quantHalfUp_zero (d : ℕ) : quantHalfUp d 0 = 0 := by
  rw [quantHalfUp]
  have h0 : qleB 0 0 = true := (qleB_iff 0 0).mpr le_rfl
  rw [if_pos h0, qMul_eq, zero_mul, qAdd_eq, zero_add]
  have hf : (Rat.divInt 1 2).floor = 0 := by decide
  rw [hf, Rat.zero_divInt]

/-- Counterexample to claim C3 as stated: for source UoM kg and target UoM
each — units of different base dimensions — the record's uom_converted flag
is true, not false (the code sets the flag to whether the unit strings
differ, not to whether a conversion took place); the price itself does pass
through the UoM step unchanged (10 stays 10). -/
theorem C3_counterexample :
    Except.map (fun r => (r.uom_converted, r.normalized_detail.price))
      (normalize_single_quote STATIC_EXCHANGE_RATES usdKgQuote
        ("USD") ("each") ("FOB") none)
      = .ok (true, Rat.divInt 10 1) := by
  decide

/-- Claim C3, amended: when the source and target units have different base
dimensions, the currency-converted price passes through the UoM step
unchanged, but the output record's uom_converted flag is true — the flag
records that the unit strings differ, not that a conversion occurred. -/
theorem C3_incompatible_uom_passthrough (price : ℚ) (s t b1 b2 : String)
    (h1 : uomBase s = some b1) (h2 : uomBase t = some b2) (h3 : b1 ≠ b2) :
    convert_uom price s t = price
    ∧ ∀ (rates : List (String × ℚ)) (quote : Quote) (tc tuom ti : String)
        (bq : Option ℚ) (r : OkRecord),
        normalize_single_quote rates quote tc tuom ti bq = .ok r →
        pyLower (quote.unit_of_measure.getD tuom) = s →
        pyLower tuom = t →
        r.uom_converted = true := by
  obtain ⟨p1, hp1, hb1⟩ : ∃ p, UNIT_CONVERSIONS.lookup s = some p ∧ p.1 = b1 := by
    cases hl : UNIT_CONVERSIONS.lookup s with
    | none => rw [uomBase, hl] at h1; cases h1
    | some p => rw [uomBase, hl] at h1; exact ⟨p, rfl, Option.some.inj h1⟩
  obtain ⟨p2, hp2, hb2⟩ : ∃ p, UNIT_CONVERSIONS.lookup t = some p ∧ p.1 = b2 := by
    cases hl : UNIT_CONVERSIONS.lookup t with
    | none => rw [uomBase, hl] at h2; cases h2
    | some p => rw [uomBase, hl] at h2; exact ⟨p, rfl, Option.some.inj h2⟩
  have hst : s ≠ t := by
    intro he
    rw [he, hp2] at hp1
    apply h3
    rw [← hb1, ← hb2, Option.some.inj hp1]
  constructor
  · rw [convert_uom, if_neg hst]
    simp only [hp1, hp2]
    rw [if_pos (by rw [hb1, hb2]; exact h3)]
  · intro rates quote tc tuom ti bq r hr hsu htu
    obtain ⟨pc, rt, -, -, hrec⟩ := nsq_ok_elim rates quote tc tuom ti bq r hr
    rw [hrec]
    show decide (pyLower (quote.unit_of_measure.getD tuom) ≠ pyLower tuom) = true
    rw [hsu, htu]
    exact decide_eq_true hst

/-- Witness for the amended C3 at a concrete input: kg (mass) against
each (count). -/
theorem C3_incompatible_uom_passthrough_witness :
    uomBase ("kg") = some ("kg")
    ∧ uomBase ("each") = some ("each")
    ∧ ("kg" : String) ≠ "each"
    ∧ (convert_uom (Rat.divInt 10 1) ("kg") ("each") = Rat.divInt 10 1
      ∧ ∀ (rates : List (String × ℚ)) (quote : Quote) (tc tuom ti : String)
          (bq : Option ℚ) (r : OkRecord),
          normalize_single_quote rates quote tc tuom ti bq = .ok r →
          pyLower (quote.unit_of_measure.getD tuom) = "kg" →
          pyLower tuom = "each" →
          r.uom_converted = true) :=
  ⟨by decide, by decide, by decide,
    C3_incompatible_uom_passthrough (Rat.divInt 10 1) ("kg") ("each") ("kg") ("each")
      (by decide) (by decide) (by decide)⟩

/-- Counterexample to claim C7 as stated: with a provided buyer quantity of
zero (non-null) and an offered quantity of 5, the code computes the total
from quantity 5 — Python `or` treats the zero buyer quantity as absent — so
the total is 50.00, not round2(price × 0) = 0. -/
theorem C7_counterexample :
    Except.map (fun r => r.normalized_total)
      (normalize_single_quote STATIC_EXCHANGE_RATES offeredFiveQuote
        ("USD") ("kg") ("FOB") (some (Rat.divInt 0 1)))
      = .ok (Rat.divInt 50 1)
    ∧ Rat.divInt 50 1 ≠ quantHalfUp 2 (qMul (Rat.divInt 10 1) (Rat.divInt 0 1)) :=
  ⟨by decide, by decide⟩

/-- Claim C7, amended: the effective quantity is the buyer quantity when
provided and nonzero; a missing or zero buyer quantity falls back to the
offered quantity when provided, else 1.  The normalized total is the landed
(pre-rounding) normalized unit price times this quantity, rounded to
2 decimal places half-up. -/
theorem C7_effective_quantity_total (rates : List (String × ℚ)) (quote : Quote)
    (tc tuom ti : String) (bq : Option ℚ) (rt : ℚ)
    (hrt : get_rate rates (pyUpper (quote.currency.getD ("USD"))) tc = .ok rt) :
    ∃ r, normalize_single_quote rates quote tc tuom ti bq = .ok r
      ∧ r.normalized_total = quantHalfUp 2 (qMul r.normalized_detail.price
          (effectiveQuantity bq quote.quantity_offered))
      ∧ (∀ q0 : ℚ, bq = some q0 → q0 ≠ 0 →
          effectiveQuantity bq quote.quantity_offered = q0)
      ∧ ((bq = none ∨ bq = some 0) →
          effectiveQuantity bq quote.quantity_offered
            = quote.quantity_offered.getD (Rat.divInt 1 1)) := by
  have hcc : ∃ pc, convert_currency rates (quote.unit_price.getD (Rat.divInt 0 1))
      (pyUpper (quote.currency.getD ("USD"))) tc = .ok pc := by
    by_cases he : pyUpper (quote.currency.getD ("USD")) = tc
    · exact ⟨_, by rw [he]; exact convert_currency_same rates _ tc⟩
    · exact ⟨_, by rw [convert_currency, if_neg he, hrt]; rfl⟩
  obtain ⟨pc, hpc⟩ := hcc
  refine ⟨buildRecord quote tc tuom ti bq pc rt,
    nsq_ok_intro rates quote tc tuom ti bq pc rt hpc hrt, rfl, ?_, ?_⟩
  · intro q0 hq0 hne
    rw [hq0]
    show (if q0 = 0 then quote.quantity_offered.getD (Rat.divInt 1 1) else q0) = q0
    exact if_neg hne
  · intro h
    rcases h with h | h
    · rw [h]
      rfl
    · rw [h]
      show (if (0:ℚ) = 0 then quote.quantity_offered.getD (Rat.divInt 1 1) else 0)
        = quote.quantity_offered.getD (Rat.divInt 1 1)
      exact if_pos rfl

/-- Witness for the amended C7 at a concrete input: buyer quantity zero and
offered quantity 5 under identity terms. -/
theorem C7_effective_quantity_total_witness :
    get_rate STATIC_EXCHANGE_RATES
      (pyUpper (offeredFiveQuote.currency.getD ("USD"))) ("USD")
      = .ok (Rat.divInt 1 1)
    ∧ ∃ r, normalize_single_quote STATIC_EXCHANGE_RATES offeredFiveQuote
        ("USD") ("kg") ("FOB") (some (Rat.divInt 0 1)) = .ok r
      ∧ r.normalized_total = quantHalfUp 2 (qMul r.normalized_detail.price
          (effectiveQuantity (some (Rat.divInt 0 1)) offeredFiveQuote.quantity_offered))
      ∧ (∀ q0 : ℚ, some (Rat.divInt 0 1) = some q0 → q0 ≠ 0 →
          effectiveQuantity (some (Rat.divInt 0 1)) offeredFiveQuote.quantity_offered = q0)
      ∧ ((some (Rat.divInt 0 1) = none ∨ some (Rat.divInt 0 1) = some 0) →
          effectiveQuantity (some (Rat.divInt 0 1)) offeredFiveQuote.quantity_offered
            = offeredFiveQuote.quantity_offered.getD (Rat.divInt 1 1)) :=
  ⟨by decide, C7_effective_quantity_total STATIC_EXCHANGE_RATES offeredFiveQuote
    ("USD") ("kg") ("FOB") (some (Rat.divInt 0 1)) (Rat.divInt 1 1) (by decide)⟩

/-- Counterexample to claim C8 as stated: a quote with no unit_price field is
normalized successfully — the engine defaults the missing price to 0 and
produces a success record with normalized price and total 0.0, not an error
record. -/
theorem C8_counterexample :
    missingPriceQuote.unit_price = none
    ∧ Except.map (fun r => (r.normalized_unit_price, r.normalized_total))
        (normalize_single_quote STATIC_EXCHANGE_RATES missingPriceQuote
          ("USD") ("kg") ("FOB") none)
        = .ok (Rat.divInt 0 1, Rat.divInt 0 1) :=
  ⟨rfl, by decide⟩

/-- Claim C8, amended: a quote whose unit_price field is missing is treated
as priced 0 — whenever its currency is resolvable the quote normalizes
successfully to normalized unit price 0 and total 0 (no error record, hence
no warning), leaving the rest of the batch unaffected. -/
theorem C8_missing_price_defaults_zero (rates : List (String × ℚ)) (quote : Quote)
    (tc tuom ti : String) (bq : Option ℚ) (rt : ℚ)
    (hp : quote.unit_price = none)
    (hrt : get_rate rates (pyUpper (quote.currency.getD ("USD"))) tc = .ok rt) :
    ∃ r, normalize_single_quote rates quote tc tuom ti bq = .ok r
      ∧ r.normalized_unit_price = 0 ∧ r.normalized_total = 0 := by
  have h0 : quote.unit_price.getD (Rat.divInt 0 1) = 0 := by rw [hp]; rfl
  have hcc : convert_currency rates (quote.unit_price.getD (Rat.divInt 0 1))
      (pyUpper (quote.currency.getD ("USD"))) tc = .ok 0 := by
    by_cases he : pyUpper (quote.currency.getD ("USD")) = tc
    · rw [he, convert_currency_same, h0]
    · rw [convert_currency, if_neg he, hrt, h0]
      show Except.ok (qMul 0 rt) = Except.ok 0
      rw [qMul_eq, zero_mul]
  refine ⟨buildRecord quote tc tuom ti bq 0 rt,
    nsq_ok_intro rates quote tc tuom ti bq 0 rt hcc hrt, ?_, ?_⟩
  · show quantHalfUp 4 (adjust_incoterm (convert_uom 0
      (pyLower (quote.unit_of_measure.getD tuom)) (pyLower tuom))
      (pyUpper (quote.incoterm.getD ("FOB"))) ti) = 0
    rw [convert_uom_zero, adjust_incoterm_zero, quantHalfUp_zero]
  · show quantHalfUp 2 (qMul (adjust_incoterm (convert_uom 0
      (pyLower (quote.unit_of_measure.getD tuom)) (pyLower tuom))
      (pyUpper (quote.incoterm.getD ("FOB"))) ti)
      (effectiveQuantity bq quote.quantity_offered)) = 0
    rw [convert_uom_zero, adjust_incoterm_zero, qMul_eq, zero_mul, quantHalfUp_zero]

/-- Witness for the amended C8 at a concrete input. -/
theorem C8_missing_price_defaults_zero_witness :
    missingPriceQuote.unit_price = none
    ∧ get_rate STATIC_EXCHANGE_RATES
        (pyUpper (missingPriceQuote.currency.getD ("USD"))) ("USD")
        = .ok (Rat.divInt 1 1)
    ∧ ∃ r, normalize_single_quote STATIC_EXCHANGE_RATES missingPriceQuote
        ("USD") ("kg") ("FOB") none = .ok r
      ∧ r.normalized_unit_price = 0 ∧ r.normalized_total = 0 :=
  ⟨rfl, by decide, C8_missing_price_defaults_zero STATIC_EXCHANGE_RATES
    missingPriceQuote ("USD") ("kg") ("FOB") none (Rat.divInt 1 1) rfl (by decide)⟩

/-- Counterexample to claim C9 as stated: the §6 currency+UoM scenario
(10.00 EUR per kg FOB normalized to USD per lbs FOB) yields a normalized
unit price of 4.9303, not 4.9304: the exact product
10 × 1.086957 × 0.453592 = 4.93034999544 rounds down at 4 decimal places. -/
theorem C9_counterexample :
    Except.map (fun r => r.normalized_unit_price)
      (normalize_single_quote STATIC_EXCHANGE_RATES scenarioQuote
        ("USD") ("lbs") ("FOB") none)
      = .ok (Rat.divInt 49303 10000)
    ∧ Rat.divInt 49303 10000 ≠ Rat.divInt 49304 10000 :=
  ⟨by decide, by decide⟩

/-- Claim C9, amended: the scenario record has currency_converted = true and
uom_converted = true, uses the quantized exchange rate 1.086957, and its
normalized unit price is 4.9303 after rounding to 4 decimals half-up. -/
theorem C9_scenario_values :
    Except.map (fun r => (r.currency_converted, r.uom_converted,
        r.exchange_rate_used, r.normalized_unit_price))
      (normalize_single_quote STATIC_EXCHANGE_RATES scenarioQuote
        ("USD") ("lbs") ("FOB") none)
      = .ok (true, true, Rat.divInt 1086957 1000000, Rat.divInt 49303 10000) := by
  decide

theorem lookup_of_mem_keys (l : List (String × ℚ)) (a : String)
    (h : a ∈ l.map Prod.fst) : ∃ v, l.lookup a = some v ∧ (a, v) ∈ l := by
  induction l with
  | nil => cases h
  | cons p t ih =>
    obtain ⟨k, w⟩ := p
    by_cases hk : a = k
    · subst hk
      exact ⟨w, by simp [List.lookup], List.mem_cons_self _ _⟩
    · have h2 : a ∈ t.map Prod.fst := by
        simp only [List.map_cons, List.mem_cons] at h
        exact h.resolve_left hk
      obtain ⟨v, hl, hm⟩ := ih h2
      refine ⟨v, ?_, List.mem_cons_of_mem _ hm⟩
      have hbeq : (a == k) = false := beq_eq_false_iff_ne.mpr hk
      simp [List.lookup, hl, hbeq]

set_option maxRecDepth 10000 in
theorem tableRoundTripOk_true : tableRoundTripOk = true := by decide

theorem table_pair_tol (A B : String) (x y : ℚ)
    (hx : (A, x) ∈ STATIC_EXCHANGE_RATES) (hy : (B, y) ∈ STATIC_EXCHANGE_RATES) :
    |quantHalfEven 6 (qDiv y x) * quantHalfEven 6 (qDiv x y) - 1| ≤ 1 / 1000 := by
  have hall := List.all_eq_true.mp tableRoundTripOk_true
  have h1 := List.all_eq_true.mp (hall _ hx) _ hy
  rw [pairTolOk] at h1
  have h2 := (qleB_iff _ _).mp h1
  rw [qAbs_eq, qSub_eq, qMul_eq] at h2
  have e1 : (Rat.divInt 1 1 : ℚ) = 1 := by decide
  have e2 : (Rat.divInt 1 1000 : ℚ) = 1 / 1000 := by
    rw [Rat.divInt_eq_div]
    norm_num
  rw [e1, e2] at h2
  exact h2

/-- Counterexample to claim C6 as stated: converting amount 1 from KRW to
USD and back multiplies by q6(1/1320) × q6(1320/1) = 0.000758 × 1320 =
1.00056 — a relative error of 5.6e-4, which exceeds the claimed 1e-4 bound
(third conjunct: the tolerance comparison evaluates to false). -/
theorem C6_counterexample :
    convert_currency STATIC_EXCHANGE_RATES (Rat.divInt 1 1) ("KRW") ("USD")
      = .ok (Rat.divInt 758 1000000)
    ∧ convert_currency STATIC_EXCHANGE_RATES (Rat.divInt 758 1000000) ("USD") ("KRW")
      = .ok (Rat.divInt 100056 100000)
    ∧ qleB (qAbs (qSub (Rat.divInt 100056 100000) (Rat.divInt 1 1)))
        (qMul (Rat.divInt 1 1) (Rat.divInt 1 10000)) = false :=
  ⟨by decide, by decide, by decide⟩

/-- Claim C6, amended: for every pair of currencies in the static table and
every positive amount, the A→B→A round trip through the 6-decimal quantized
cross-rates reproduces the amount within a relative error of 1e-3 (1e-4 is
violated, e.g. by the KRW/USD pair). -/
theorem C6_round_trip (A B : String)
    (hA : A ∈ STATIC_EXCHANGE_RATES.map Prod.fst)
    (hB : B ∈ STATIC_EXCHANGE_RATES.map Prod.fst)
    (a : ℚ) (ha : 0 < a) :
    ∃ b c, convert_currency STATIC_EXCHANGE_RATES a A B = .ok b
      ∧ convert_currency STATIC_EXCHANGE_RATES b B A = .ok c
      ∧ |c - a| ≤ a / 1000 := by
  by_cases hAB : A = B
  · subst hAB
    refine ⟨a, a, convert_currency_same _ _ _, convert_currency_same _ _ _, ?_⟩
    rw [sub_self, abs_zero]
    positivity
  · obtain ⟨x, hxl, hxm⟩ := lookup_of_mem_keys _ _ hA
    obtain ⟨y, hyl, hym⟩ := lookup_of_mem_keys _ _ hB
    have hb : convert_currency STATIC_EXCHANGE_RATES a A B
        = .ok (qMul a (quantHalfEven 6 (qDiv y x))) := by
      rw [convert_currency, if_neg hAB, get_rate, if_neg hAB, hxl, hyl]
      rfl
    have hc : convert_currency STATIC_EXCHANGE_RATES
        (qMul a (quantHalfEven 6 (qDiv y x))) B A
        = .ok (qMul (qMul a (quantHalfEven 6 (qDiv y x)))
            (quantHalfEven 6 (qDiv x y))) := by
      rw [convert_currency, if_neg (Ne.symm hAB), get_rate, if_neg (Ne.symm hAB),
        hyl, hxl]
      rfl
    refine ⟨_, _, hb, hc, ?_⟩
    rw [qMul_eq, qMul_eq]
    have htol := table_pair_tol A B x y hxm hym
    have key : a * quantHalfEven 6 (qDiv y x) * quantHalfEven 6 (qDiv x y) - a
        = a * (quantHalfEven 6 (qDiv y x) * quantHalfEven 6 (qDiv x y) - 1) := by
      ring
    rw [key, abs_mul, abs_of_pos ha]
    exact le_trans (mul_le_mul_of_nonneg_left htol ha.le) (le_of_eq (by ring))

/-- Witness for the amended C6 at a concrete input: the EUR/USD pair at
amount 1. -/
theorem C6_round_trip_witness :
    ("EUR") ∈ STATIC_EXCHANGE_RATES.map Prod.fst
    ∧ ("USD") ∈ STATIC_EXCHANGE_RATES.map Prod.fst
    ∧ (0:ℚ) < 1
    ∧ ∃ b c, convert_currency STATIC_EXCHANGE_RATES 1 ("EUR") ("USD") = .ok b
      ∧ convert_currency STATIC_EXCHANGE_RATES b ("USD") ("EUR") = .ok c
      ∧ |c - 1| ≤ 1 / 1000 :=
  ⟨by decide, by decide, by decide,
    C6_round_trip ("EUR") ("USD") (by decide) (by decide) 1 (by decide)⟩

theorem rankEntries_length (k : ℕ) (l : List OkRecord) :
    (rankEntries k l).length = l.length := by
  induction l generalizing k with
  | nil => rfl
  | cons r rs ih => simp [rankEntries, ih]

theorem rankEntries_nup (k : ℕ) (l : List OkRecord) :
    (rankEntries k l).map RankEntry.normalized_unit_price
    = l.map OkRecord.normalized_unit_price := by
  induction l generalizing k with
  | nil => rfl
  | cons r rs ih => simp [rankEntries, ih]

theorem rankEntries_data (k : ℕ) (l : List OkRecord) :
    (rankEntries k l).map entryData = l.map recordData := by
  induction l generalizing k with
  | nil => rfl
  | cons r rs ih => simp [rankEntries, entryData, recordData, ih]

theorem rankEntries_rank (k : ℕ) (l : List OkRecord) :
    (rankEntries k l).map RankEntry.rank = List.range' k l.length := by
  induction l generalizing k with
  | nil => rfl
  | cons r rs ih => simp [rankEntries, List.range'_succ, ih]

theorem rankEntries_filter (k : ℕ) (l : List OkRecord) (p : ℚ) :
    ((rankEntries k l).filter fun e =>
      decide (e.normalized_unit_price = p)).map entryData
    = (l.filter fun r => decide (r.normalized_unit_price = p)).map recordData := by
  induction l generalizing k with
  | nil => rfl
  | cons r rs ih =>
    by_cases h : r.normalized_unit_price = p
    · simp [rankEntries, List.filter_cons, h, entryData, recordData, ih]
    · simp [rankEntries, List.filter_cons, h, ih]

theorem insertionSort_filter_stable (l : List OkRecord) (p : ℚ) :
    (List.insertionSort priceRel l).filter
      (fun r => decide (r.normalized_unit_price = p))
    = l.filter (fun r => decide (r.normalized_unit_price = p)) := by
  have hmem : ∀ r ∈ l.filter (fun r => decide (r.normalized_unit_price = p)),
      r.normalized_unit_price = p := by
    intro r hr
    have h := List.of_mem_filter hr
    rwa [decide_eq_true_iff] at h
  have hpw : (l.filter (fun r => decide (r.normalized_unit_price = p))).Pairwise
      priceRel :=
    List.pairwise_of_forall_mem_list (fun a ha b hb =>
      (qleB_iff _ _).mpr (le_of_eq (by rw [hmem a ha, hmem b hb])))
  have hss := List.sublist_insertionSort hpw (List.filter_sublist l)
  have hperm := List.perm_insertionSort priceRel l
  have hpf := hperm.filter (fun r => decide (r.normalized_unit_price = p))
  have hcf : (l.filter (fun r => decide (r.normalized_unit_price = p))).filter
      (fun r => decide (r.normalized_unit_price = p))
      = l.filter (fun r => decide (r.normalized_unit_price = p)) := by
    refine List.filter_eq_self.mpr (fun a ha => ?_)
    exact decide_eq_true (hmem a ha)
  have hfs := hss.filter (fun r => decide (r.normalized_unit_price = p))
  rw [hcf] at hfs
  exact (hfs.eq_of_length hpf.length_eq.symm).symm

/-- Claim C1: the ranking lists exactly the output records with a non-null
normalized unit price (as a permutation of their data), sorted ascending by
normalized unit price, with contiguous 1-based ranks; the first entry has
the minimum price, and entries of any fixed price appear in input order
(stability of the sort). -/
theorem C1_ranking_correct (rates : List (String × ℚ)) (bc buom : String)
    (bq : Option ℚ) (bi : String) (quotes : List Quote) :
    ((normalize_quotes rates bc buom bq bi quotes).ranking.map entryData).Perm
      (((normalize_quotes rates bc buom bq bi quotes).normalized_quotes.filterMap
        NormRecord.toOk).map recordData)
    ∧ (normalize_quotes rates bc buom bq bi quotes).ranking.Pairwise
        (fun a b => a.normalized_unit_price ≤ b.normalized_unit_price)
    ∧ (normalize_quotes rates bc buom bq bi quotes).ranking.map RankEntry.rank
        = List.range' 1 (normalize_quotes rates bc buom bq bi quotes).ranking.length
    ∧ ((normalize_quotes rates bc buom bq bi quotes).ranking.head?.all fun e =>
        (normalize_quotes rates bc buom bq bi quotes).ranking.all fun f =>
          qleB e.normalized_unit_price f.normalized_unit_price) = true
    ∧ ∀ p : ℚ, ((normalize_quotes rates bc buom bq bi quotes).ranking.filter
          fun e => decide (e.normalized_unit_price = p)).map entryData
        = (((normalize_quotes rates bc buom bq bi quotes).normalized_quotes.filterMap
            NormRecord.toOk).filter
          fun r => decide (r.normalized_unit_price = p)).map recordData := by
  rw [normalize_quotes_ranking_def, normalize_quotes_normalized]
  generalize (quotes.map (processQuote rates (pyUpper bc) buom
    (if bi = "" then "FOB" else pyUpper bi) bq)).filterMap NormRecord.toOk = oks
  have hperm := List.perm_insertionSort priceRel oks
  have hsorted : (List.insertionSort priceRel oks).Pairwise priceRel :=
    List.sorted_insertionSort priceRel oks
  have hpw : (rankEntries 1 (List.insertionSort priceRel oks)).Pairwise
      (fun a b => a.normalized_unit_price ≤ b.normalized_unit_price) := by
    have h1 : ((List.insertionSort priceRel oks).map
        OkRecord.normalized_unit_price).Pairwise (fun a b : ℚ => a ≤ b) :=
      List.pairwise_map.mpr (hsorted.imp (fun hab => (qleB_iff _ _).mp hab))
    rw [← rankEntries_nup 1] at h1
    exact List.pairwise_map.mp h1
  refine ⟨?_, hpw, ?_, ?_, ?_⟩
  · rw [rankEntries_data]
    exact hperm.map recordData
  · rw [rankEntries_rank, rankEntries_length]
  · cases hE : rankEntries 1 (List.insertionSort priceRel oks) with
    | nil => rfl
    | cons e t =>
      rw [hE] at hpw
      show (e :: t).all (fun f => qleB e.normalized_unit_price
        f.normalized_unit_price) = true
      refine List.all_eq_true.mpr (fun f hf => ?_)
      rcases List.mem_cons.mp hf with rfl | hf2
      · exact (qleB_iff _ _).mpr le_rfl
      · exact (qleB_iff _ _).mpr ((List.pairwise_cons.mp hpw).1 f hf2)
  · intro p
    rw [rankEntries_filter, insertionSort_filter_stable]
